import Mathlib

/-!
Verification of the response-sanitization and parsing pipeline of the
NotebookLM slide-restore service.  The embedding follows the source file
containing `sanitizeJsonString` and `analyzeSlideImage`: JavaScript strings
become `List Char`, the regex replacements become explicit scans, JavaScript's
`String.prototype.substring` (with its argument-swapping behaviour) becomes
`jsSubstring`, and the `JSON.parse` builtin is modelled by a recursive-descent
parser over the standard JSON grammar.
-/

namespace GeminiService

/-- The ECMAScript whitespace class `\s` (also the set removed by
`String.prototype.trim`): space, tab, LF, VT, FF, CR, NBSP, and the
Unicode space separators plus BOM. -/
def isJsWs (c : Char) : Bool :=
  c.toNat = 9 || c.toNat = 10 || c.toNat = 11 || c.toNat = 12 || c.toNat = 13 ||
  c.toNat = 32 || c.toNat = 160 || c.toNat = 5760 ||
  (8192 ≤ c.toNat && c.toNat ≤ 8202) ||
  c.toNat = 8232 || c.toNat = 8233 || c.toNat = 8239 || c.toNat = 8287 ||
  c.toNat = 12288 || c.toNat = 65279

/-- The backtick character, written via its code point. -/
def tickChar : Char := Char.ofNat 96

/-- The three-backtick fence marker. -/
def ticks3 : List Char := [tickChar, tickChar, tickChar]

/-- The characters of the leading fence marker pattern, three backticks
followed by the letters of json. -/
def fenceJson : List Char := ticks3 ++ ("json").toList

/-- Drop a single leading ECMAScript whitespace character, if present.  This is
the effect of the `\s?` suffix of the leading-fence regex on the text after the
matched marker. -/
def dropOneWs : List Char → List Char
  | [] => []
  | w :: t => if isJsWs w then t else w :: t

/-- The first `.replace` of line 50 of the source: the regex has no anchor and
no global flag, so it removes the first occurrence of the marker (plus at most
one following whitespace character) anywhere in the string. -/
def stripJsonFence : List Char → List Char
  | [] => []
  | c :: rest =>
    if (c :: rest).take 7 = fenceJson then dropOneWs ((c :: rest).drop 7)
    else c :: stripJsonFence rest

/-- The second `.replace` of line 50 of the source: the regex is anchored with
a dollar, so it matches only a suffix consisting of three backticks followed by
at most one whitespace character. -/
def stripEndFence (s : List Char) : List Char :=
  if 0 < s.reverse.length ∧ isJsWs (s.reverse.headD (Char.ofNat 0)) = true ∧
      (s.reverse.tail).take 3 = ticks3 then
    (s.reverse.drop 4).reverse
  else if (s.reverse).take 3 = ticks3 then ((s.reverse).drop 3).reverse
  else s

/-- JavaScript `String.prototype.trim`: whitespace removed from both ends. -/
def jsTrim (s : List Char) : List Char :=
  ((s.dropWhile isJsWs).reverse.dropWhile isJsWs).reverse

/-- Index of the first occurrence of a character, JavaScript `indexOf`
(with `none` standing for -1). -/
def firstIdxAux (c : Char) : List Char → Nat → Option Nat
  | [], _ => none
  | x :: xs, i => if x = c then some i else firstIdxAux c xs (i + 1)

/-- JavaScript `indexOf` on the character list. -/
def firstIdx (s : List Char) (c : Char) : Option Nat := firstIdxAux c s 0

/-- JavaScript `lastIndexOf` on the character list. -/
def lastIdx (s : List Char) (c : Char) : Option Nat :=
  match firstIdxAux c s.reverse 0 with
  | some k => some (s.length - 1 - k)
  | none => none

/-- JavaScript `String.prototype.substring s a b`: the arguments are swapped
when the start exceeds the end, and indices are clamped to the string. -/
def jsSubstring (s : List Char) (a b : Nat) : List Char :=
  (s.take (max a b)).drop (min a b)

/-- Lines 53 to 57 of the source: locate the first opening brace and the last
closing brace; when both exist keep `substring(firstBrace, lastBrace + 1)`,
otherwise leave the string unchanged. -/
def extractBraces (s : List Char) : List Char :=
  match firstIdx s '{', lastIdx s '}' with
  | some i, some j => jsSubstring s i (j + 1)
  | _, _ => s

/-- Hexadecimal digit test, the character class of the lookahead on line 61. -/
def hexDigit (c : Char) : Bool :=
  ('0' ≤ c && c ≤ '9') || ('a' ≤ c && c ≤ 'f') || ('A' ≤ c && c ≤ 'F')

/-- Whether a list begins with four hexadecimal digits: the lookahead
`[0-9a-fA-F]{4}` of line 61. -/
def hex4 : List Char → Bool
  | a :: b :: c :: d :: _ => hexDigit a && hexDigit b && hexDigit c && hexDigit d
  | _ => false

/-- Whether a list begins with a backslash followed by the letter u. -/
def startsBU : List Char → Bool
  | c :: d :: _ => c == '\\' && d == 'u'
  | _ => false

/-- Whether a backslash-u pair occurs anywhere in the list. -/
def hasBU : List Char → Bool
  | [] => false
  | c :: t => startsBU (c :: t) || hasBU t

/-- Line 61 of the source: the global replacement of `\u` not followed by four
hexadecimal digits with a literal `u`.  The scan moves left to right; a
replaced match consumes the backslash and the u, an unreplaced `\uXXXX`
is passed over, and any other character is kept. -/
def fixUnicode : List Char → List Char
  | [] => []
  | [c] => [c]
  | c :: d :: rest =>
    if c == '\\' && d == 'u' then
      if hex4 rest then c :: d :: fixUnicode rest else d :: fixUnicode rest
    else c :: fixUnicode (d :: rest)

/-- The character class removed on line 64: 0x00-0x08, 0x0B, 0x0C, 0x0E-0x1F
and 0x7F-0x9F. -/
def isBadControl (c : Char) : Bool :=
  (c.toNat ≤ 8) || c.toNat = 11 || c.toNat = 12 ||
  (14 ≤ c.toNat && c.toNat ≤ 31) || (127 ≤ c.toNat && c.toNat ≤ 159)

/-- Line 64 of the source: global removal of the control characters. -/
def removeControl (s : List Char) : List Char :=
  s.filter (fun c => !(isBadControl c))

/-- The whole of `sanitizeJsonString` (lines 48-67): fence removal, trim,
brace-span extraction, unicode-escape repair, control-character removal,
in source order. -/
def sanitizeJsonString (s : List Char) : List Char :=
  removeControl (fixUnicode (extractBraces (jsTrim (stripEndFence (stripJsonFence s)))))

/-- JSON values, the shapes produced by the JavaScript `JSON.parse` builtin.
Numbers are kept exact as mantissa times ten to the exponent. -/
inductive Json where
  | null
  | bool (b : Bool)
  | num (mantissa : Int) (exp10 : Int)
  | str (s : List Char)
  | arr (elems : List Json)
  | obj (fields : List (List Char × Json))

/-- Last-wins association lookup, matching how a JavaScript object built from
a JSON text resolves duplicate keys. -/
def lookupLast : List (List Char × Json) → List Char → Option Json
  | [], _ => none
  | (k, v) :: rest, key =>
    match lookupLast rest key with
    | some r => some r
    | none => if k = key then some v else none

/-- Field access on a parsed JSON object. -/
def lookupField (j : Json) (key : List Char) : Option Json :=
  match j with
  | Json.obj fields => lookupLast fields key
  | _ => none

/-- JSON whitespace (distinct from the ECMAScript class used by the regexes). -/
def isJsonWs (c : Char) : Bool :=
  c.toNat = 32 || c.toNat = 9 || c.toNat = 10 || c.toNat = 13

/-- Skip JSON whitespace. -/
def skipWs (l : List Char) : List Char := l.dropWhile isJsonWs

/-- Value of a hexadecimal digit. -/
def hexVal (c : Char) : Option Nat :=
  if '0' ≤ c && c ≤ '9' then some (c.toNat - 48)
  else if 'a' ≤ c && c ≤ 'f' then some (c.toNat - 87)
  else if 'A' ≤ c && c ≤ 'F' then some (c.toNat - 55)
  else none

/-- Single-character JSON string escapes. -/
def escChar (e : Char) : Option Char :=
  if e = '"' then some '"'
  else if e = '\\' then some '\\'
  else if e = '/' then some '/'
  else if e = 'b' then some (Char.ofNat 8)
  else if e = 'f' then some (Char.ofNat 12)
  else if e = 'n' then some '\n'
  else if e = 'r' then some '\r'
  else if e = 't' then some '\t'
  else none

/-- Body of a JSON string literal after the opening quote: returns the decoded
content and the remainder after the closing quote.  Unescaped control
characters below 0x20 and malformed escapes are rejected, as in `JSON.parse`. -/
def parseStringBody : Nat → List Char → Option (List Char × List Char)
  | 0, _ => none
  | _ + 1, [] => none
  | f + 1, c :: rest =>
    if c = '"' then some ([], rest)
    else if c = '\\' then
      match rest with
      | [] => none
      | e :: rest2 =>
        match escChar e with
        | some d =>
          match parseStringBody f rest2 with
          | some (s, r) => some (d :: s, r)
          | none => none
        | none =>
          if e = 'u' then
            match rest2 with
            | h1 :: h2 :: h3 :: h4 :: rest3 =>
              match hexVal h1, hexVal h2, hexVal h3, hexVal h4 with
              | some a, some b, some c2, some d2 =>
                match parseStringBody f rest3 with
                | some (s, r) =>
                  some (Char.ofNat (((a * 16 + b) * 16 + c2) * 16 + d2) :: s, r)
                | none => none
              | _, _, _, _ => none
            | _ => none
          else none
    else if c.toNat < 32 then none
    else
      match parseStringBody f rest with
      | some (s, r) => some (c :: s, r)
      | none => none

/-- Digits of a decimal literal read as a natural number. -/
def digitsToNat (l : List Char) : Nat :=
  l.foldl (fun n c => n * 10 + (c.toNat - 48)) 0

/-- Optional fraction part of a JSON number: a dot must be followed by at
least one digit. -/
def parseFrac (l : List Char) : Option (List Char × List Char) :=
  match l with
  | p :: rest =>
    if p = '.' then
      if rest.takeWhile Char.isDigit = [] then none
      else some (rest.takeWhile Char.isDigit, rest.dropWhile Char.isDigit)
    else some ([], l)
  | [] => some ([], [])

/-- Optional exponent part of a JSON number. -/
def parseExp (l : List Char) : Option (Int × List Char) :=
  match l with
  | e :: rest =>
    if e = 'e' || e = 'E' then
      match rest with
      | s :: r =>
        if s = '+' then
          if r.takeWhile Char.isDigit = [] then none
          else some ((digitsToNat (r.takeWhile Char.isDigit) : Int), r.dropWhile Char.isDigit)
        else if s = '-' then
          if r.takeWhile Char.isDigit = [] then none
          else some (-(digitsToNat (r.takeWhile Char.isDigit) : Int), r.dropWhile Char.isDigit)
        else
          if rest.takeWhile Char.isDigit = [] then none
          else some ((digitsToNat (rest.takeWhile Char.isDigit) : Int), rest.dropWhile Char.isDigit)
      | [] => none
    else some (0, l)
  | [] => some (0, [])

/-- A JSON number literal: optional minus sign, integer part without leading
zeros, optional fraction and exponent. -/
def parseNumber (l : List Char) : Option (Json × List Char) :=
  match l with
  | [] => none
  | c0 :: rest0 =>
    let neg := c0 = '-'
    let l1 := if neg then rest0 else l
    let intDs := l1.takeWhile Char.isDigit
    let l2 := l1.dropWhile Char.isDigit
    if intDs = [] then none
    else if 1 < intDs.length ∧ intDs.headD '0' = '0' then none
    else
      match parseFrac l2 with
      | none => none
      | some (fracDs, l3) =>
        match parseExp l3 with
        | none => none
        | some (e, l4) =>
          let m : Int := (digitsToNat (intDs ++ fracDs) : Int)
          some (Json.num (if neg then -m else m) (e - (fracDs.length : Int)), l4)

/-- Intermediate results of the recursive-descent parser. -/
inductive PRes where
  | val (j : Json)
  | fields (fs : List (List Char × Json))
  | items (es : List Json)

/-- Parser modes: a value, the inside of an object or array, the member list
of an object, the element list of an array. -/
inductive PMode where
  | value
  | objRest
  | members
  | arrRest
  | elements

/-- Model of the JavaScript `JSON.parse` builtin applied on line 111 of the
source (the builtin itself is not repository code): a recursive-descent parser
for the standard JSON grammar, driven by a fuel counter large enough for any
input it is applied to in this development. -/
def parseStep : Nat → PMode → List Char → Option (PRes × List Char)
  | 0, _, _ => none
  | f + 1, PMode.value, l =>
    (match skipWs l with
     | [] => none
     | c :: rest =>
       if c = '{' then parseStep f PMode.objRest rest
       else if c = '[' then parseStep f PMode.arrRest rest
       else if c = '"' then
         match parseStringBody (rest.length + 1) rest with
         | some (s, r) => some (PRes.val (Json.str s), r)
         | none => none
       else if c = 't' then
         if rest.take 3 = ("rue").toList then some (PRes.val (Json.bool true), rest.drop 3)
         else none
       else if c = 'f' then
         if rest.take 4 = ("alse").toList then some (PRes.val (Json.bool false), rest.drop 4)
         else none
       else if c = 'n' then
         if rest.take 3 = ("ull").toList then some (PRes.val Json.null, rest.drop 3)
         else none
       else
         match parseNumber (c :: rest) with
         | some (j, r) => some (PRes.val j, r)
         | none => none)
  | f + 1, PMode.objRest, l =>
    (match skipWs l with
     | [] => none
     | c :: rest =>
       if c = '}' then some (PRes.val (Json.obj []), rest)
       else
         match parseStep f PMode.members (c :: rest) with
         | some (PRes.fields fs, r) => some (PRes.val (Json.obj fs), r)
         | _ => none)
  | f + 1, PMode.members, l =>
    (match skipWs l with
     | [] => none
     | c :: rest =>
       if c = '"' then
         match parseStringBody (rest.length + 1) rest with
         | some (key, r1) =>
           (match skipWs r1 with
            | [] => none
            | c2 :: r2 =>
              if c2 = ':' then
                match parseStep f PMode.value r2 with
                | some (PRes.val v, r3) =>
                  (match skipWs r3 with
                   | [] => none
                   | c3 :: r4 =>
                     if c3 = ',' then
                       match parseStep f PMode.members r4 with
                       | some (PRes.fields fs, r5) => some (PRes.fields ((key, v) :: fs), r5)
                       | _ => none
                     else if c3 = '}' then some (PRes.fields [(key, v)], r4)
                     else none)
                | _ => none
              else none)
         | none => none
       else none)
  | f + 1, PMode.arrRest, l =>
    (match skipWs l with
     | [] => none
     | c :: rest =>
       if c = ']' then some (PRes.val (Json.arr []), rest)
       else
         match parseStep f PMode.elements (c :: rest) with
         | some (PRes.items es, r) => some (PRes.val (Json.arr es), r)
         | _ => none)
  | f + 1, PMode.elements, l =>
    (match parseStep f PMode.value l with
     | some (PRes.val v, r1) =>
       (match skipWs r1 with
        | [] => none
        | c :: r2 =>
          if c = ',' then
            match parseStep f PMode.elements r2 with
            | some (PRes.items es, r3) => some (PRes.items (v :: es), r3)
            | _ => none
          else if c = ']' then some (PRes.items [v], r2)
          else none)
     | _ => none)

/-- The message carried by the SyntaxError raised for malformed JSON. -/
def jsonErr : String := "SyntaxError: Unexpected token in JSON"

/-- Model of `JSON.parse` on a whole text: parse one value, allow trailing
whitespace only, otherwise raise a SyntaxError. -/
def parseJson (l : List Char) : Except String Json :=
  match parseStep (2 * l.length + 8) PMode.value l with
  | some (PRes.val v, rest) =>
    if skipWs rest = [] then Except.ok v else Except.error jsonErr
  | _ => Except.error jsonErr

/-- The fallback object returned when the response has no text (line 108):
white background and no elements. -/
def defaultResult : Json :=
  Json.obj [(("backgroundColor").toList, Json.str (("#FFFFFF").toList)),
            (("elements").toList, Json.arr [])]

/-- Lines 107-123 of the source: the response-handling tail of
`analyzeSlideImage`.  A falsy text (absent or empty) yields the default
result; otherwise the text is sanitized and handed to `JSON.parse`, and any
parse error is rethrown unchanged by the catch block (its
retry-with-more-aggressive-cleaning branch binds a variable and does nothing
else before the rethrow). -/
def analyzeSlideImage (text : Option (List Char)) : Except String Json :=
  match text with
  | none => Except.ok defaultResult
  | some t =>
    if t = [] then Except.ok defaultResult
    else
      match parseJson (sanitizeJsonString t) with
      | Except.ok v => Except.ok v
      | Except.error e => Except.error e

/-- Formalisation of claim C2's reading of the brace step: the span of the
input running from the first opening brace to the last closing brace
inclusive (empty when the last closing brace lies before the first opening
brace, since then no such forward span exists). -/
def claimedBraceSpan (s : List Char) : List Char :=
  match firstIdx s '{', lastIdx s '}' with
  | some i, some j => (s.take (j + 1)).drop i
  | _, _ => s

theorem fixUnicode_bu (b : List Char) :
    fixUnicode ('\\' :: 'u' :: b) =
      if hex4 b then '\\' :: 'u' :: fixUnicode b else 'u' :: fixUnicode b := rfl

theorem fixUnicode_cons_of_not (c : Char) (t : List Char)
    (h : startsBU (c :: t) = false) : fixUnicode (c :: t) = c :: fixUnicode t := by
  cases t with
  | nil => rfl
  | cons d rest =>
    have hb : (c == '\\' && d == 'u') = false := by
      simpa [startsBU] using h
    simp [fixUnicode, hb]

theorem stripEndFence_append_ticks (c : List Char) :
    stripEndFence (c ++ ("```").toList) = c := by
  rcases hc : c.reverse with _ | ⟨d, t⟩
  · have h0 : c = [] := by
      have h1 := congrArg List.reverse hc
      simpa using h1
    subst h0
    rfl
  · have hs : (c ++ ("```").toList).reverse = tickChar :: tickChar :: tickChar :: (d :: t) := by
      rw [List.reverse_append, hc]
      rfl
    have hneg : ¬ (0 < (tickChar :: tickChar :: tickChar :: (d :: t)).length ∧
        isJsWs ((tickChar :: tickChar :: tickChar :: (d :: t)).headD (Char.ofNat 0)) = true ∧
        ((tickChar :: tickChar :: tickChar :: (d :: t)).tail).take 3 = ticks3) := by
      intro hand
      have h2 := hand.2.1
      rw [List.headD_cons] at h2
      exact absurd h2 (by decide)
    have hpos : (tickChar :: tickChar :: tickChar :: (d :: t)).take 3 = ticks3 := rfl
    unfold stripEndFence
    rw [hs, if_neg hneg, if_pos hpos]
    show (d :: t).reverse = c
    rw [← hc, List.reverse_reverse]

theorem stripJsonFence_first (a b : List Char)
    (h : ∀ i, i < a.length → ¬ ((a ++ fenceJson ++ b).drop i).take 7 = fenceJson) :
    stripJsonFence (a ++ fenceJson ++ b) = a ++ dropOneWs b := by
  induction a with
  | nil =>
    simp only [List.nil_append]
    have ht : (fenceJson ++ b).take 7 = fenceJson :=
      List.take_left' (show fenceJson.length = 7 from rfl)
    have hd : (fenceJson ++ b).drop 7 = b :=
      List.drop_left' (show fenceJson.length = 7 from rfl)
    rcases hfb : fenceJson ++ b with _ | ⟨c, rest⟩
    · exact absurd hfb (by simp [fenceJson, ticks3])
    · rw [hfb] at ht hd
      simp only [stripJsonFence]
      rw [if_pos ht, hd]
  | cons c a' ih =>
    have h0 : ¬ ((c :: (a' ++ fenceJson ++ b)).take 7 = fenceJson) := by
      have h1 := h 0 (by simp)
      simpa using h1
    simp only [List.cons_append]
    simp only [stripJsonFence]
    rw [if_neg h0]
    have h' : ∀ i, i < a'.length → ¬ ((a' ++ fenceJson ++ b).drop i).take 7 = fenceJson := by
      intro i hi
      have h2 := h (i + 1) (by simpa using Nat.succ_lt_succ hi)
      simpa using h2
    rw [ih h']

/-- C1 (amended): the first `.replace` of `sanitizeJsonString` is unanchored,
so the fence-stripping step removes the first occurrence of the marker
(three backticks then json, plus at most one immediately following whitespace
character) wherever it occurs in the string, not only at the start; a trailing
three-backtick marker is removed only at the end of the string. -/
theorem c1_fence_strip (a b : List Char)
    (h : ∀ i, i < a.length → ¬ ((a ++ fenceJson ++ b).drop i).take 7 = fenceJson) :
    stripJsonFence (a ++ fenceJson ++ b) = a ++ dropOneWs b ∧
    ∀ c : List Char, stripEndFence (c ++ ("```").toList) = c :=
  ⟨stripJsonFence_first a b h, fun c => stripEndFence_append_ticks c⟩

/-- C1 witness: the fence marker occurring after the character x is removed,
and a trailing marker after ab is removed. -/
theorem c1_fence_strip_witness :
    stripJsonFence (("x```jsony").toList) = ("xy").toList ∧
    stripEndFence (("ab```").toList) = ("ab").toList := by
  have h := c1_fence_strip (("x").toList) (("y").toList) (by decide)
  exact ⟨h.1, h.2 (("ab").toList)⟩

/-- C1 counterexample: the claim says an occurrence of the leading fence
marker that is not at the start is not removed, so the input a```jsonb (no
fence at the start or end, no braces, no escapes, no control characters)
would be left unchanged; the code removes the mid-string marker and returns
ab. -/
theorem c1_fence_strip_cex :
    sanitizeJsonString (("a```jsonb").toList) = ("ab").toList ∧
    ("ab").toList ≠ ("a```jsonb").toList :=
  ⟨rfl, by decide⟩

/-- C2 (amended): when both braces exist and the first opening brace occurs at
or before the last closing brace, the brace step keeps exactly the inclusive
span between them; when either brace is missing the step leaves the string
unchanged.  (When the last closing brace precedes the first opening brace the
substring arguments are swapped, see the C10 theorem.) -/
theorem c2_brace_span (s : List Char) :
    (∀ i j, firstIdx s '{' = some i → lastIdx s '}' = some j → i ≤ j →
      extractBraces s = (s.take (j + 1)).drop i) ∧
    ((firstIdx s '{' = none ∨ lastIdx s '}' = none) → extractBraces s = s) := by
  constructor
  · intro i j h1 h2 h3
    unfold extractBraces
    rw [h1, h2]
    show jsSubstring s i (j + 1) = (s.take (j + 1)).drop i
    unfold jsSubstring
    have hmax : max i (j + 1) = j + 1 := by omega
    have hmin : min i (j + 1) = i := by omega
    rw [hmax, hmin]
  · intro h
    rcases h with h | h
    · unfold extractBraces
      rw [h]
    · unfold extractBraces
      rw [h]
      cases hf : firstIdx s '{' <;> rfl

/-- C2 witness: on the string a, open brace, b, close brace, c, the step keeps
the inclusive brace span. -/
theorem c2_brace_span_witness :
    extractBraces (("a\x7bb\x7dc").toList) = ("\x7bb\x7d").toList := by
  have h := (c2_brace_span (("a\x7bb\x7dc").toList)).1 1 3 rfl rfl (by decide)
  exact h

/-- C2 counterexample: on the string close brace, x, open brace, the span from
the first opening brace to the last closing brace is empty (the last closing
brace precedes the first opening brace), yet the code keeps the character x,
because substring swaps its arguments. -/
theorem c2_brace_span_cex :
    extractBraces (("\x7dx\x7b").toList) = ("x").toList ∧
    claimedBraceSpan (("\x7dx\x7b").toList) = [] :=
  ⟨rfl, rfl⟩

/-- C3: the unicode-repair step replaces a backslash-u pair that is not
followed by four hexadecimal digits with a literal u (dropping the backslash)
and leaves a backslash-u pair followed by four hexadecimal digits unchanged,
continuing the same replacement on the remainder; stated for the occurrence
after any backslash-u-free prefix. -/
theorem c3_unicode_repair (a b : List Char) (ha : hasBU a = false) :
    (hex4 b = false → fixUnicode (a ++ '\\' :: 'u' :: b) = a ++ 'u' :: fixUnicode b) ∧
    (hex4 b = true → fixUnicode (a ++ '\\' :: 'u' :: b) = a ++ '\\' :: 'u' :: fixUnicode b) := by
  induction a with
  | nil =>
    constructor
    · intro hb
      simp only [List.nil_append]
      rw [fixUnicode_bu]
      simp [hb]
    · intro hb
      simp only [List.nil_append]
      rw [fixUnicode_bu]
      simp [hb]
  | cons c a' ih =>
    have hsplit : startsBU (c :: a') = false ∧ hasBU a' = false := by
      simpa [hasBU, Bool.or_eq_false_iff] using ha
    have hs : startsBU (c :: (a' ++ '\\' :: 'u' :: b)) = false := by
      cases a' with
      | nil =>
        have hbu : ('\\' == 'u') = false := by decide
        simp [startsBU, hbu]
      | cons d t => simpa [startsBU] using hsplit.1
    have step := fixUnicode_cons_of_not c (a' ++ '\\' :: 'u' :: b) hs
    obtain ⟨ih1, ih2⟩ := ih hsplit.2
    constructor
    · intro hb
      simp only [List.cons_append]
      rw [step, ih1 hb]
    · intro hb
      simp only [List.cons_append]
      rw [step, ih2 hb]

/-- C3 witness: backslash-u followed by 12z becomes u12z, while backslash-u
followed by 1234 is untouched. -/
theorem c3_unicode_repair_witness :
    fixUnicode (("x\\u12z").toList) = ("xu12z").toList ∧
    fixUnicode (("x\\u1234z").toList) = ("x\\u1234z").toList := by
  have h1 := (c3_unicode_repair (("x").toList) (("12z").toList) (by decide)).1 (by decide)
  have h2 := (c3_unicode_repair (("x").toList) (("1234z").toList) (by decide)).2 (by decide)
  exact ⟨h1, h2⟩

/-- C4: the control-character step returns a subsequence of its input that
contains no character of the removed ranges, keeps every character outside the
removed ranges with its multiplicity (tab, newline and carriage return are
outside the removed ranges). -/
theorem c4_control_removal (s : List Char) :
    List.Sublist (removeControl s) s ∧
    (∀ c, c ∈ removeControl s → isBadControl c = false) ∧
    (isBadControl (Char.ofNat 9) = false ∧ isBadControl (Char.ofNat 10) = false ∧
      isBadControl (Char.ofNat 13) = false) ∧
    (∀ c, isBadControl c = false → (removeControl s).count c = s.count c) := by
  refine ⟨List.filter_sublist s, ?_, by decide, ?_⟩
  · intro c hc
    have h2 := (List.mem_filter.mp hc).2
    simpa using h2
  · intro c hcGood
    simp only [removeControl]
    exact List.count_filter (by simp [hcGood])

/-- C4 witness: the tab character 0x09 keeps its multiplicity across removal
on a string that also contains the removed byte 0x01. -/
theorem c4_control_removal_witness :
    (removeControl (("a\x01\x09b").toList)).count (Char.ofNat 9) =
      (("a\x01\x09b").toList).count (Char.ofNat 9) :=
  (c4_control_removal (("a\x01\x09b").toList)).2.2.2 (Char.ofNat 9) (by decide)

/-- C5: an absent or empty raw response yields the default result with white
background and no elements; the definition returns in the falsy branch before
the sanitizer or the parser is reached. -/
theorem c5_empty_default :
    analyzeSlideImage none = Except.ok defaultResult ∧
    analyzeSlideImage (some []) = Except.ok defaultResult :=
  ⟨rfl, rfl⟩

/-- C6: for a non-empty raw response whose sanitized form fails to parse, the
parse error is rethrown unchanged: no default or partial result is
substituted. -/
theorem c6_error_propagates (t : List Char) (e : String) (h1 : t ≠ [])
    (h2 : parseJson (sanitizeJsonString t) = Except.error e) :
    analyzeSlideImage (some t) = Except.error e := by
  simp only [analyzeSlideImage]
  rw [if_neg h1, h2]

/-- C6 witness: the unrepairable input of the spec raises the malformed-JSON
error rather than returning a default. -/
theorem c6_error_propagates_witness :
    analyzeSlideImage (some (("\x7b\"backgroundColor\": invalid\x7d").toList)) =
      Except.error jsonErr :=
  c6_error_propagates _ _ (by decide) rfl

set_option maxRecDepth 8000 in
/-- C7: the fenced example parses to the object with background #FFF and no
elements, and the noise-wrapped example parses to an object with exactly one
element, of type text with content hi. -/
theorem c7_examples :
    analyzeSlideImage
        (some (("```json\n\x7b\"backgroundColor\":\"#FFF\",\"elements\":[]\x7d\n```").toList)) =
      Except.ok (Json.obj [(("backgroundColor").toList, Json.str (("#FFF").toList)),
                           (("elements").toList, Json.arr [])]) ∧
    analyzeSlideImage
        (some (("noise\x7b\"backgroundColor\":\"#000\",\"elements\":[\x7b\"type\":\"text\",\"content\":\"hi\",\"x\":0,\"y\":0,\"width\":10,\"height\":5\x7d]\x7dtrailing").toList)) =
      Except.ok (Json.obj [(("backgroundColor").toList, Json.str (("#000").toList)),
        (("elements").toList, Json.arr [Json.obj [
          (("type").toList, Json.str (("text").toList)),
          (("content").toList, Json.str (("hi").toList)),
          (("x").toList, Json.num 0 0),
          (("y").toList, Json.num 0 0),
          (("width").toList, Json.num 10 0),
          (("height").toList, Json.num 5 0)]])]) :=
  ⟨rfl, rfl⟩

/-- C8 (amended): a successfully parsed response object is returned verbatim;
in particular a missing backgroundColor field stays missing and is not
defaulted to #FFFFFF (the default arises only on the empty-response path). -/
theorem c8_verbatim (t : List Char) (v : Json) (h1 : t ≠ [])
    (h2 : parseJson (sanitizeJsonString t) = Except.ok v) :
    analyzeSlideImage (some t) = Except.ok v := by
  simp only [analyzeSlideImage]
  rw [if_neg h1, h2]

/-- C8 witness: the object with only an elements field is returned as-is. -/
theorem c8_verbatim_witness :
    analyzeSlideImage (some (("\x7b\"elements\":[]\x7d").toList)) =
      Except.ok (Json.obj [(("elements").toList, Json.arr [])]) :=
  c8_verbatim _ _ (by decide) rfl

/-- C8 counterexample: parsing an object without a backgroundColor field
returns that object unchanged, and its backgroundColor lookup is none, not
the claimed default #FFFFFF. -/
theorem c8_no_default_cex :
    analyzeSlideImage (some (("\x7b\"elements\":[]\x7d").toList)) =
      Except.ok (Json.obj [(("elements").toList, Json.arr [])]) ∧
    lookupField (Json.obj [(("elements").toList, Json.arr [])])
      (("backgroundColor").toList) = none :=
  ⟨rfl, rfl⟩

/-- C9: the control-character removal is the last step of the sanitizer, so
no character of the removed ranges survives in the output. -/
theorem c9_no_control_in_output (s : List Char) (c : Char)
    (hc : c ∈ sanitizeJsonString s) : isBadControl c = false := by
  simp only [sanitizeJsonString, removeControl] at hc
  have h2 := (List.mem_filter.mp hc).2
  simpa using h2

/-- C9 witness: the letter a survives sanitization and is not a removed
control character. -/
theorem c9_no_control_in_output_witness : isBadControl 'a' = false :=
  c9_no_control_in_output (("a").toList) 'a' (by decide)

/-- C10: when the last closing brace lies strictly before the first opening
brace, the brace step returns the text strictly between the two braces, both
excluded, because substring swaps its arguments. -/
theorem c10_swapped_substring (s : List Char) (i j : Nat)
    (h1 : firstIdx s '{' = some i) (h2 : lastIdx s '}' = some j) (h3 : j < i) :
    extractBraces s = (s.take i).drop (j + 1) := by
  unfold extractBraces
  rw [h1, h2]
  show jsSubstring s i (j + 1) = (s.take i).drop (j + 1)
  unfold jsSubstring
  have hmax : max i (j + 1) = i := by omega
  have hmin : min i (j + 1) = j + 1 := by omega
  rw [hmax, hmin]

/-- C10 witness: on close brace, x, open brace the step returns exactly x. -/
theorem c10_swapped_substring_witness :
    extractBraces (("\x7dx\x7b").toList) = ("x").toList := by
  have h := c10_swapped_substring (("\x7dx\x7b").toList) 2 0 rfl rfl (by decide)
  exact h

end GeminiService
